import Mathlib

/-!
Shallow embedding of the ML engine of the `steam-arena` repository
(`backend/app/services/ml_service.py`, together with the recommendation
endpoint of `backend/app/routers/ml.py`), and proofs about it.

Conventions used throughout:
* Python floats are modelled as real numbers; the literal `1e-10` becomes
  the exact rational `1 / 10 ^ 10`.
* Database tables are lists of rows in insertion order; UUID keys are
  modelled as naturals.
* Python dicts and `collections.Counter` (which iterate in insertion order)
  are association lists; `dict[k] = v` replaces in place or appends, and
  `Counter[k] += v` adds in place or appends.
* `sorted(l, key=key, reverse=True)` (a stable descending sort) and
  `Counter.most_common(n)` (documented to be equivalent to
  `sorted(items, key=value, reverse=True)[:n]`) are modelled by a stable
  merge sort with comparator `key y ≤ key x` followed by `take`.
-/

namespace SteamArena

/-! ### Data model: rows of the tables touched by the ML service -/

/-- A row of `user_games` (only the columns the ML service reads). -/
structure UserGame where
  steam_user_id : ℕ
  game_id : ℕ
  playtime_forever : ℕ
  playtime_2weeks : ℕ
deriving DecidableEq

/-- A row of `user_achievements` (only the columns the ML service reads). -/
structure UserAchievement where
  steam_user_id : ℕ
  achieved : Bool
deriving DecidableEq

/-- A row of `games` (only the columns the ML service reads). -/
structure Game where
  id : ℕ
  metacritic_score : Option ℕ
deriving DecidableEq

/-- A row of `ml_player_features`.  `cluster_id` and `feature_vector` are
nullable columns. -/
structure MLPlayerFeatures where
  steam_user_id : ℕ
  total_games : ℕ
  total_playtime : ℕ
  avg_playtime_per_game : ℝ
  games_played : ℕ
  games_never_played : ℕ
  completion_rate : ℝ
  total_achievements : ℕ
  achievement_rate : ℝ
  favorite_genre : Option String
  genre_diversity_score : ℝ
  top_genres : List (String × ℕ)
  activity_score : ℝ
  cluster_id : Option ℤ
  feature_vector : Option (List ℝ)

/-- A row of `recommendations`.  The score type is kept generic so that
statements about the persistence layer (which never inspects scores) can be
instantiated both at `ℝ` (the source's floats) and at decidable types for
concrete evaluation. -/
structure Recommendation (S : Type) where
  steam_user_id : ℕ
  game_id : ℕ
  recommendation_type : String
  score : S
  reason : String
deriving DecidableEq

/-- The recommendation dicts built by the recommenders
(`{"game": ..., "score": ..., "recommendation_type": ..., "reason": ...}`);
`game` holds the game's id. -/
structure RecDict (S : Type) where
  game : ℕ
  score : S
  recommendation_type : String
  reason : String
deriving DecidableEq

/-- The feature dict returned by `MLService.extract_user_features`. -/
structure Features where
  total_games : ℕ
  total_playtime : ℕ
  avg_playtime_per_game : ℝ
  games_played : ℕ
  games_never_played : ℕ
  completion_rate : ℝ
  total_achievements : ℕ
  achievement_rate : ℝ
  favorite_genre : Option String
  genre_diversity_score : ℝ
  top_genres : List (String × ℕ)
  activity_score : ℝ

/-- The read-only database state consumed by the ML service.
`game_genres` models the `Genre ⋈ GameGenre` join as (game id, genre name)
pairs, which is the only way the service ever reads genres. -/
structure DB where
  user_games : List UserGame
  user_achievements : List UserAchievement
  game_genres : List (ℕ × String)
  games : List Game
  ml_features : List MLPlayerFeatures

/-! ### Generic helpers for the Python collection idioms -/

/-- `Counter[k] += v` / grouped-sum accumulation: add into an existing entry in
place, or append a fresh entry at the end (Python dicts keep first-insertion
position). -/
def bumpAssoc {κ β : Type} [BEq κ] [Add β] (m : List (κ × β)) (k : κ) (v : β) :
    List (κ × β) :=
  if m.any fun p => p.1 == k then
    m.map fun p => if p.1 == k then (p.1, p.2 + v) else p
  else m ++ [(k, v)]

/-- `sorted(l, key=key, reverse=True)`: a stable descending sort by a key. -/
def sortDescBy {α β : Type} [LinearOrder β] (key : α → β) (l : List α) : List α :=
  l.mergeSort fun x y => decide (key y ≤ key x)

/-- Python truthiness of a nullable JSONB list column (`if f.feature_vector:`):
`None` and `[]` are falsy. -/
def truthyVec : Option (List ℝ) → Bool
  | some (_ :: _) => true
  | _ => false

/-- Python `x or d` for a nullable integer column: `None` and `0` are falsy. -/
def orDefault (o : Option ℕ) (d : ℕ) : ℕ :=
  match o with
  | some m => if m = 0 then d else m
  | none => d

/-! ### Genre diversity calculator -/

/-- The `1e-10` guard that `MLService._calculate_genre_diversity` adds inside
the logarithm to avoid `log 0`. -/
noncomputable def logEps : ℝ := 1 / 10 ^ 10

/-- Embedding of `MLService._calculate_genre_diversity`: Shannon-entropy based
diversity of a genre → playtime map (a Python dict, modelled as an association
list in insertion order; values are summed playtime minutes). -/
noncomputable def calculate_genre_diversity (genre_distribution : List (String × ℕ)) : ℝ :=
  if genre_distribution.isEmpty then 0
  else
    let total : ℕ := (genre_distribution.map Prod.snd).sum
    if total = 0 then 0
    else
      let proportions : List ℝ := genre_distribution.map fun x => (x.2 : ℝ) / (total : ℝ)
      let entropy : ℝ :=
        -((proportions.map fun p => if 0 < p then p * Real.log (p + logEps) else 0).sum)
      let max_entropy : ℝ := Real.log genre_distribution.length
      if 0 < max_entropy then entropy / max_entropy else 0

/-! ### Feature extraction -/

/-- Embedding of `MLService._get_genre_playtime_distribution`: the
`Genre ⋈ GameGenre ⋈ Game ⋈ UserGame` join for one user, grouped by genre
name, summing `playtime_forever`. -/
def get_genre_playtime_distribution (db : DB) (user_id : ℕ) : List (String × ℕ) :=
  (((db.user_games.filter fun ug => ug.steam_user_id == user_id).flatMap fun ug =>
      (db.game_genres.filter fun gg => gg.1 == ug.game_id).map fun gg =>
        (gg.2, ug.playtime_forever))).foldl
    (fun m r => bumpAssoc m r.1 r.2) []

/-- Python `max(items, key=lambda x: x[1])[0]`: the key of the first entry with
maximal value (ties keep the earlier entry). -/
def maxBySnd : List (String × ℕ) → Option String
  | [] => none
  | x :: xs => some ((xs.foldl (fun best p => if best.2 < p.2 then p else best) x).1)

/-- Embedding of `MLService.extract_user_features`. -/
noncomputable def extract_user_features (db : DB) (user_id : ℕ) : Features :=
  let ugs := db.user_games.filter fun ug => ug.steam_user_id == user_id
  let total_games := ugs.length
  let total_playtime := (ugs.map UserGame.playtime_forever).sum
  let games_played := (ugs.filter fun ug => decide (0 < ug.playtime_forever)).length
  let games_never_played := (ugs.filter fun ug => ug.playtime_forever == 0).length
  let avg_playtime : ℝ := if total_games = 0 then 0 else (total_playtime : ℝ) / (total_games : ℝ)
  let achs := db.user_achievements.filter fun a => a.steam_user_id == user_id
  let total_achievements := achs.length
  let unlocked_achievements := (achs.filter UserAchievement.achieved).length
  let genre_distribution := get_genre_playtime_distribution db user_id
  let recent_playtime := (ugs.map UserGame.playtime_2weeks).sum
  let genre_diversity := calculate_genre_diversity genre_distribution
  let completion_rate : ℝ :=
    if 0 < total_achievements then
      (unlocked_achievements : ℝ) / (total_achievements : ℝ) * 100
    else 0
  { total_games := total_games
    total_playtime := total_playtime
    avg_playtime_per_game := avg_playtime
    games_played := games_played
    games_never_played := games_never_played
    completion_rate := completion_rate
    total_achievements := total_achievements
    achievement_rate :=
      if 0 < total_achievements then
        (unlocked_achievements : ℝ) / (total_achievements : ℝ)
      else 0
    favorite_genre := maxBySnd genre_distribution
    genre_diversity_score := genre_diversity
    top_genres := genre_distribution
    activity_score := if 0 < recent_playtime then min ((recent_playtime : ℝ) / 100) 100 else 0 }

/-- The 8-component `feature_vector` list built inside
`MLService.save_user_features`. -/
noncomputable def feature_vector_of (f : Features) : List ℝ :=
  [(f.total_games : ℝ), (f.total_playtime : ℝ) / 60, f.avg_playtime_per_game,
   (f.games_played : ℝ), f.completion_rate, f.achievement_rate * 100,
   f.genre_diversity_score * 100, f.activity_score]

/-- The update branch of `MLService.save_user_features`: every feature field of
the existing row is overwritten (`cluster_id` is not among them). -/
def updateFeatures (m : MLPlayerFeatures) (f : Features) (fv : List ℝ) : MLPlayerFeatures :=
  { m with
    total_games := f.total_games
    total_playtime := f.total_playtime
    avg_playtime_per_game := f.avg_playtime_per_game
    games_played := f.games_played
    games_never_played := f.games_never_played
    completion_rate := f.completion_rate
    total_achievements := f.total_achievements
    achievement_rate := f.achievement_rate
    favorite_genre := f.favorite_genre
    genre_diversity_score := f.genre_diversity_score
    top_genres := f.top_genres
    activity_score := f.activity_score
    feature_vector := some fv }

/-- The create branch of `MLService.save_user_features`: a fresh row; the
`cluster_id` column has no default, so it is created null. -/
def newFeaturesRow (uid : ℕ) (f : Features) (fv : List ℝ) : MLPlayerFeatures :=
  { steam_user_id := uid
    total_games := f.total_games
    total_playtime := f.total_playtime
    avg_playtime_per_game := f.avg_playtime_per_game
    games_played := f.games_played
    games_never_played := f.games_never_played
    completion_rate := f.completion_rate
    total_achievements := f.total_achievements
    achievement_rate := f.achievement_rate
    favorite_genre := f.favorite_genre
    genre_diversity_score := f.genre_diversity_score
    top_genres := f.top_genres
    activity_score := f.activity_score
    cluster_id := none
    feature_vector := some fv }

/-- Upsert of the `ml_player_features` row for a user: the first row with this
user id (the `.first()` of the query) is updated in place, otherwise a fresh
row is added. -/
def upsertML : List MLPlayerFeatures → ℕ → Features → List ℝ → List MLPlayerFeatures
  | [], uid, f, fv => [newFeaturesRow uid f fv]
  | m :: rest, uid, f, fv =>
    if m.steam_user_id == uid then updateFeatures m f fv :: rest
    else m :: upsertML rest uid f fv

/-- Embedding of `MLService.save_user_features`: extract the features and
upsert the row, writing the whole 8-float vector. -/
noncomputable def save_user_features (db : DB) (user_id : ℕ) : DB :=
  let features := extract_user_features db user_id
  let feature_vector := feature_vector_of features
  { db with ml_features := upsertML db.ml_features user_id features feature_vector }

/-! ### Clustering

`StandardScaler` is embedded as the population-statistics column
standardization it computes; `sklearn.cluster.KMeans` is an external library
and is taken as a parameter `kmeans seed n_init X n_clusters` (the source
constructs it with `random_state=42, n_init=10`).  scikit-learn raises
`ValueError` when it is given fewer samples than clusters; that raise is the
`kmeans_value_error` branch below.  The read-only `_analyze_clusters` summary
in the returned dict is not modelled; the modelled result carries the updated
table together with `total_users_clustered`. -/

/-- Population mean of a list (as used by `StandardScaler`). -/
noncomputable def meanOf (l : List ℝ) : ℝ := l.sum / l.length

/-- Population variance of a list (as used by `StandardScaler`). -/
noncomputable def varianceOf (l : List ℝ) : ℝ :=
  ((l.map fun x => (x - meanOf l) ^ 2).sum) / l.length

/-- Column `j` of a row-major matrix. -/
def columnOf (m : List (List ℝ)) (j : ℕ) : List ℝ := m.map fun r => r.getD j 0

/-- The per-column divisor of `StandardScaler` (a zero standard deviation is
replaced by 1, as scikit-learn does). -/
noncomputable def scaleOf (l : List ℝ) : ℝ :=
  let s := Real.sqrt (varianceOf l)
  if s = 0 then 1 else s

/-- Embedding of `StandardScaler().fit_transform`. -/
noncomputable def fit_transform (m : List (List ℝ)) : List (List ℝ) :=
  m.map fun row => row.mapIdx fun j x => (x - meanOf (columnOf m j)) / scaleOf (columnOf m j)

/-- The failure outcomes of `MLService.cluster_players`: the two `error` dict
returns of the source, plus the `ValueError` that scikit-learn's `KMeans`
raises when given fewer samples than clusters. -/
inductive ClusterError where
  | not_enough_users (requested available : ℕ)
  | no_feature_vectors
  | kmeans_value_error (n_samples n_clusters : ℕ)
deriving DecidableEq

/-- First value stored under a key in an association list. -/
def assocFind (l : List (ℕ × ℕ)) (k : ℕ) : Option ℕ :=
  (l.find? fun p => p.1 == k).map Prod.snd

/-- The write-back loop of `cluster_players` for one row: if this user was in
the run, overwrite `cluster_id` with the assigned label, else leave the row
alone. -/
def apply_cluster_assignment (assignments : List (ℕ × ℕ)) (f : MLPlayerFeatures) :
    MLPlayerFeatures :=
  match assocFind assignments f.steam_user_id with
  | some c => { f with cluster_id := some (c : ℤ) }
  | none => f

/-- The label (as the nullable integer column value) an assignment list gives
to a user id. -/
def assigned_label (assignments : List (ℕ × ℕ)) (u : ℕ) : Option ℤ :=
  match assocFind assignments u with
  | some c => some (c : ℤ)
  | none => none

/-- Embedding of `MLService.cluster_players`.  On success it returns the
updated `ml_player_features` table together with `total_users_clustered`; on
failure nothing has been written. -/
noncomputable def cluster_players (kmeans : ℕ → ℕ → List (List ℝ) → ℕ → List ℕ)
    (tbl : List MLPlayerFeatures) (n_clusters : ℕ) :
    Except ClusterError (List MLPlayerFeatures × ℕ) :=
  if tbl.length < n_clusters then .error (.not_enough_users n_clusters tbl.length)
  else
    let withVec := tbl.filter fun f => truthyVec f.feature_vector
    let user_ids := withVec.map MLPlayerFeatures.steam_user_id
    let feature_matrix := withVec.map fun f => f.feature_vector.getD []
    if feature_matrix.isEmpty then .error .no_feature_vectors
    else if feature_matrix.length < n_clusters then
      .error (.kmeans_value_error feature_matrix.length n_clusters)
    else
      let X_scaled := fit_transform feature_matrix
      let labels := kmeans 42 10 X_scaled n_clusters
      let assignments := user_ids.zip labels
      .ok (tbl.map (apply_cluster_assignment assignments), user_ids.length)

/-- The per-run cluster assignment a clustering outcome gives to the players
that took part in the run (those whose stored vector is truthy). -/
def cluster_assignment_view (tbl : List MLPlayerFeatures) : List (ℕ × Option ℤ) :=
  (tbl.filter fun f => truthyVec f.feature_vector).map fun f =>
    (f.steam_user_id, f.cluster_id)

/-- Canonical form of a clustering run's observable outcome, computed from the
(user id, stored vector) projection of the features table alone.  Used to show
that `cluster_players` depends on nothing else. -/
noncomputable def viewResult (kmeans : ℕ → ℕ → List (List ℝ) → ℕ → List ℕ)
    (proj : List (ℕ × Option (List ℝ))) (n_clusters : ℕ) :
    Except ClusterError (List (ℕ × Option ℤ) × ℕ) :=
  if proj.length < n_clusters then .error (.not_enough_users n_clusters proj.length)
  else if ((proj.filter fun p => truthyVec p.2).map fun p => p.2.getD []).isEmpty then
    .error .no_feature_vectors
  else if ((proj.filter fun p => truthyVec p.2).map fun p => p.2.getD []).length
      < n_clusters then
    .error (.kmeans_value_error
      ((proj.filter fun p => truthyVec p.2).map fun p => p.2.getD []).length n_clusters)
  else
    .ok
      ((proj.filter fun p => truthyVec p.2).map fun p =>
        (p.1,
         assigned_label
           (((proj.filter fun q => truthyVec q.2).map Prod.fst).zip
             (kmeans 42 10
               (fit_transform ((proj.filter fun q => truthyVec q.2).map fun q =>
                 q.2.getD [])) n_clusters)) p.1),
       ((proj.filter fun p => truthyVec p.2).map Prod.fst).length)

/-! ### Collaborative recommender -/

/-- `numpy.log1p`. -/
noncomputable def log1p (x : ℝ) : ℝ := Real.log (1 + x)

/-- Dot product of two vectors (trailing entries of the longer one ignored). -/
noncomputable def dotList (a b : List ℝ) : ℝ := ((a.zip b).map fun p => p.1 * p.2).sum

/-- Euclidean norm of a vector. -/
noncomputable def norm2 (a : List ℝ) : ℝ := Real.sqrt ((a.map fun x => x ^ 2).sum)

/-- `sklearn.metrics.pairwise.cosine_similarity` of two single-row matrices. -/
noncomputable def cosine_similarity (a b : List ℝ) : ℝ :=
  dotList a b / (norm2 a * norm2 b)

/-- The set of game ids already owned by a user
(`user_games = set(ug.game_id for ...)` in the source, read once before the
scoring loop). -/
def owned_game_ids (db : DB) (user_id : ℕ) : List ℕ :=
  (db.user_games.filter fun ug => ug.steam_user_id == user_id).map UserGame.game_id

/-- The `similar_users` local of `get_collaborative_recommendations`: the
target's cluster mates, or — when there are none — a bounded sample of all
other users with feature rows. -/
def collab_similar_users (db : DB) (user_id : ℕ) (user_features : MLPlayerFeatures) :
    List MLPlayerFeatures :=
  let cluster_peers := db.ml_features.filter fun m =>
    m.cluster_id == user_features.cluster_id && m.steam_user_id != user_id
  if cluster_peers.isEmpty then
    (db.ml_features.filter fun m => m.steam_user_id != user_id).take 50
  else cluster_peers

/-- The `top_similar` local of `get_collaborative_recommendations`: cosine
similarities to the peers that have truthy vectors, sorted descending and
capped at 10. -/
noncomputable def collab_top_similar (db : DB) (user_id : ℕ)
    (user_features : MLPlayerFeatures) : List (ℕ × ℝ) :=
  (sortDescBy Prod.snd
    (((collab_similar_users db user_id user_features).filter fun su =>
        truthyVec su.feature_vector).map fun su =>
      (su.steam_user_id,
       cosine_similarity (user_features.feature_vector.getD [])
         (su.feature_vector.getD [])))).take 10

/-- The `game_scores` local of `get_collaborative_recommendations`: the
similarity-weighted `Counter` over the top peers' games with more than an hour
of playtime, skipping games the target owns. -/
noncomputable def collab_game_scores (db : DB) (user_id : ℕ)
    (user_features : MLPlayerFeatures) : List (ℕ × ℝ) :=
  (collab_top_similar db user_id user_features).foldl
    (fun acc p =>
      (db.user_games.filter fun ug =>
          ug.steam_user_id == p.1 && decide (60 < ug.playtime_forever)).foldl
        (fun acc2 ug =>
          if ug.game_id ∈ owned_game_ids db user_id then acc2
          else bumpAssoc acc2 ug.game_id (p.2 * log1p (ug.playtime_forever : ℝ)))
        acc)
    ([] : List (ℕ × ℝ))

/-- The body of `get_collaborative_recommendations` once the target's feature
row has been found: rank the counter, keep the top `n`, and wrap every game
still present in the `games` table into a recommendation dict. -/
noncomputable def collab_recs_for (db : DB) (user_id n_recommendations : ℕ)
    (user_features : MLPlayerFeatures) : List (RecDict ℝ) :=
  if truthyVec user_features.feature_vector then
    (((sortDescBy Prod.snd (collab_game_scores db user_id user_features)).take
        n_recommendations).filter fun p => db.games.any fun g => g.id == p.1).map fun p =>
      { game := p.1, score := p.2, recommendation_type := "collaborative",
        reason := "Based on games played by similar users" }
  else []

/-- Embedding of `MLService.get_collaborative_recommendations` (the source's
locals are lifted into the named definitions above).  The source returns plain
lists on every path and raises nothing; in particular a missing or falsy
feature vector yields `[]`. -/
noncomputable def get_collaborative_recommendations (db : DB) (user_id : ℕ)
    (n_recommendations : ℕ) : List (RecDict ℝ) :=
  match db.ml_features.find? fun m => m.steam_user_id == user_id with
  | none => []
  | some user_features => collab_recs_for db user_id n_recommendations user_features

/-! ### Content-based recommender -/

/-- Embedding of `MLService.get_content_based_recommendations`.  The candidate
query joins each not-owned, metacritic-scored game with its matching genre
tags (one joined row per match), orders by metacritic score descending and
keeps 50 rows; the scoring loop then deduplicates.  Python's unordered
`set(...) & set(...)` in the reason string is rendered in first-encountered
order. -/
noncomputable def get_content_based_recommendations (db : DB) (user_id : ℕ)
    (n_recommendations : ℕ) : List (RecDict ℝ) :=
  let genre_dist := get_genre_playtime_distribution db user_id
  if genre_dist.isEmpty then []
  else
    let user_games := (db.user_games.filter fun ug => ug.steam_user_id == user_id).map
      UserGame.game_id
    let top_genres := (sortDescBy Prod.snd genre_dist).take 5
    let top_genre_names := top_genres.map Prod.fst
    let potential_games :=
      ((sortDescBy (fun g : Game => orDefault g.metacritic_score 0)
        ((db.games.filter fun g =>
            !(user_games.contains g.id) && g.metacritic_score.isSome).flatMap
          fun g =>
            (db.game_genres.filter fun gg =>
                gg.1 == g.id && top_genre_names.contains gg.2).map fun _ => g))).take 50
    let result := potential_games.foldl
      (fun (st : List ℕ × List (RecDict ℝ)) g =>
        if st.1.contains g.id then st
        else
          let game_genre_names := (db.game_genres.filter fun gg => gg.1 == g.id).map Prod.snd
          let matched := (game_genre_names.filter fun nm => top_genre_names.contains nm).dedup
          let score : ℝ := (matched.length : ℝ) * ((orDefault g.metacritic_score 50 : ℕ) : ℝ) / 100
          (g.id :: st.1,
           st.2 ++ [{ game := g.id, score := score,
                      recommendation_type := "content_based",
                      reason := "Matches your favorite genres: " ++
                        String.intercalate ", " matched }]))
      ([], [])
    (sortDescBy RecDict.score result.2).take n_recommendations

/-! ### Hybrid fusion -/

/-- Retag a recommendation dict as `hybrid` (`{**rec, "recommendation_type":
"hybrid"}`). -/
def hybridize {S : Type} (r : RecDict S) : RecDict S :=
  { r with recommendation_type := "hybrid" }

/-- First loop of `MLService.get_hybrid_recommendations`:
`all_recs[game_id] = {**rec, "score": rec["score"], "recommendation_type": "hybrid"}`. -/
def upsert_collab {S : Type} (m : List (ℕ × RecDict S)) (rec : RecDict S) :
    List (ℕ × RecDict S) :=
  if m.any fun p => p.1 == rec.game then
    m.map fun p => if p.1 == rec.game then (p.1, hybridize rec) else p
  else m ++ [(rec.game, hybridize rec)]

/-- Second loop of `MLService.get_hybrid_recommendations`: sum the scores and
join the reasons with `"; "` when the game is already present, otherwise add it
retagged `hybrid`. -/
def merge_content {S : Type} [Add S] (m : List (ℕ × RecDict S)) (rec : RecDict S) :
    List (ℕ × RecDict S) :=
  if m.any fun p => p.1 == rec.game then
    m.map fun p =>
      if p.1 == rec.game then
        (p.1, { p.2 with
                  score := p.2.score + rec.score
                  reason := p.2.reason ++ "; " ++ rec.reason })
      else p
  else m ++ [(rec.game, hybridize rec)]

/-- What claim C2 states about one entry of the fused output, relative to the
two input lists: summed score and joined reasons when the game is in both,
unchanged score and reason when it is in exactly one, impossible otherwise. -/
def fused_entry_spec {S : Type} [Add S] (collaborative content_based : List (RecDict S))
    (e : RecDict S) : Prop :=
  match collaborative.find? fun r => r.game == e.game,
      content_based.find? fun r => r.game == e.game with
  | some cr, some tr =>
      e.score = cr.score + tr.score ∧ e.reason = cr.reason ++ "; " ++ tr.reason
  | some cr, none => e.score = cr.score ∧ e.reason = cr.reason
  | none, some tr => e.score = tr.score ∧ e.reason = tr.reason
  | none, none => False

/-- Outcome of the second fusion loop on one already-present entry: if some
content-based rec has this entry's key, the scores are summed and the reasons
joined; otherwise the entry is unchanged.  (Used to characterize the fusion
fold.) -/
def apply_content_updates {S : Type} [Add S] (content : List (RecDict S))
    (q : ℕ × RecDict S) : ℕ × RecDict S :=
  match content.find? fun c => c.game == q.1 with
  | some c =>
    (q.1, { q.2 with
              score := q.2.score + c.score
              reason := q.2.reason ++ "; " ++ c.reason })
  | none => q

/-- The fusion core of `MLService.get_hybrid_recommendations` as a function of
the two already-computed lists: merge into the `all_recs` dict, sort its values
by score descending, truncate to `n`.  Generic in the score type (the source
applies it to floats). -/
def merge_recommendations {S : Type} [LinearOrder S] [Add S]
    (collaborative content_based : List (RecDict S)) (n_recommendations : ℕ) :
    List (RecDict S) :=
  let all_recs := content_based.foldl merge_content (collaborative.foldl upsert_collab [])
  (sortDescBy RecDict.score (all_recs.map Prod.snd)).take n_recommendations

/-- Embedding of `MLService.get_hybrid_recommendations`. -/
noncomputable def get_hybrid_recommendations (db : DB) (user_id : ℕ)
    (n_recommendations : ℕ) : List (RecDict ℝ) :=
  merge_recommendations (get_collaborative_recommendations db user_id n_recommendations)
    (get_content_based_recommendations db user_id n_recommendations) n_recommendations

/-! ### Recommendation persistence -/

/-- Embedding of `MLService.save_recommendations`: delete every stored row of
this user, then insert the new set. -/
def save_recommendations {S : Type} (table : List (Recommendation S)) (user_id : ℕ)
    (recommendations : List (RecDict S)) : List (Recommendation S) :=
  (table.filter fun r => r.steam_user_id != user_id) ++
    recommendations.map fun rec =>
      { steam_user_id := user_id
        game_id := rec.game
        recommendation_type := rec.recommendation_type
        score := rec.score
        reason := rec.reason }

/-- The persistence step of the `/ml/users/{user_id}/recommendations` endpoint
(`routers/ml.py`): `if recommendations: ml_service.save_recommendations(...)` —
the save is skipped when the freshly computed list is empty. -/
def recommendations_request_save {S : Type} (table : List (Recommendation S))
    (user_id : ℕ) (recs : List (RecDict S)) : List (Recommendation S) :=
  if recs.isEmpty then table else save_recommendations table user_id recs

/-! ### Concrete fixtures used by counterexamples and witnesses -/

/-- An `ml_player_features` row whose feature fields are all zero/empty. -/
def blankRow (uid : ℕ) (fv : Option (List ℝ)) : MLPlayerFeatures :=
  { steam_user_id := uid
    total_games := 0
    total_playtime := 0
    avg_playtime_per_game := 0
    games_played := 0
    games_never_played := 0
    completion_rate := 0
    total_achievements := 0
    achievement_rate := 0
    favorite_genre := none
    genre_diversity_score := 0
    top_genres := []
    activity_score := 0
    cluster_id := none
    feature_vector := fv }

/-- A stand-in for the external k-means: every sample is labelled 0. -/
def kmZero : ℕ → ℕ → List (List ℝ) → ℕ → List ℕ := fun _ _ X _ => X.map fun _ => 0

/-- A database with every table empty. -/
def emptyDB : DB := ⟨[], [], [], [], []⟩

/-- A database in which player 1 has a feature row with a null vector while
player 2 has data that could be recommended. -/
def dbNoVec : DB :=
  { user_games := [⟨2, 7, 120, 0⟩]
    user_achievements := []
    game_genres := []
    games := [⟨7, some 80⟩]
    ml_features := [blankRow 1 none, blankRow 2 (some [1])] }

/-- A features table with two rows of which only one has a truthy vector. -/
def c4tbl : List MLPlayerFeatures := [blankRow 1 (some [1]), blankRow 2 none]

/-- A one-entry collaborative list (the spec's fusion example, score 3). -/
def c2collab : List (RecDict ℕ) :=
  [{ game := 1, score := 3, recommendation_type := "collaborative", reason := "r1" }]

/-- A one-entry content-based list (the spec's fusion example, score 2). -/
def c2content : List (RecDict ℕ) :=
  [{ game := 1, score := 2, recommendation_type := "content_based", reason := "r2" }]

/-! ## Theorems -/

/-! ### Arithmetic helpers -/

theorem logEps_pos : (0 : ℝ) < logEps := by
  unfold logEps; positivity

theorem list_sum_map_add {α : Type} (l : List α) (f g : α → ℝ) :
    (l.map fun x => f x + g x).sum = (l.map f).sum + (l.map g).sum := by
  induction l with
  | nil => simp
  | cons a t ih => simp [ih]; ring

theorem list_sum_map_div {α : Type} (l : List α) (f : α → ℝ) (c : ℝ) :
    (l.map fun x => f x / c).sum = (l.map f).sum / c := by
  induction l with
  | nil => simp
  | cons a t ih => simp [ih, add_div]

theorem list_sum_map_natcast {α : Type} (l : List α) (f : α → ℕ) :
    (l.map fun x => ((f x : ℕ) : ℝ)).sum = (((l.map f).sum : ℕ) : ℝ) := by
  induction l with
  | nil => simp
  | cons a t ih => simp [ih]

theorem list_sum_map_const {α : Type} (l : List α) (c : ℝ) :
    (l.map fun _ => c).sum = l.length * c := by
  induction l with
  | nil => simp
  | cons a t ih => simp [ih]; ring

theorem list_sum_map_mul_right {α : Type} (l : List α) (f : α → ℝ) (c : ℝ) :
    (l.map fun x => f x * c).sum = (l.map f).sum * c := by
  induction l with
  | nil => simp
  | cons a t ih => simp [ih]; ring

theorem list_sum_neg (l : List ℝ) : -l.sum = (l.map fun x => -x).sum := by
  induction l with
  | nil => simp
  | cons a t ih => simp [ih]; ring

theorem one_sub_inv_le_log (x : ℝ) (hx : 0 < x) : 1 - 1 / x ≤ Real.log x := by
  have h := Real.log_le_sub_one_of_pos (show (0 : ℝ) < 1 / x by positivity)
  rw [one_div, Real.log_inv] at h
  rw [one_div]
  linarith

/-! ### Genre diversity: general bounds -/

theorem calculate_genre_diversity_def (gd : List (String × ℕ)) :
    calculate_genre_diversity gd =
      if gd.isEmpty then 0
      else if (gd.map Prod.snd).sum = 0 then 0
      else
        if 0 < Real.log gd.length then
          -(((gd.map fun x => (x.2 : ℝ) / (((gd.map Prod.snd).sum : ℕ) : ℝ)).map fun p =>
              if 0 < p then p * Real.log (p + logEps) else 0).sum) / Real.log gd.length
        else 0 := rfl

/-- Per-term bound used for the entropy estimate: each summand of the negated
entropy is at most `p * log n + 1/n - p`. -/
theorem entropy_term_le (n : ℕ) (hn : 0 < n) (p : ℝ) (hp0 : 0 ≤ p) :
    (if 0 < p then -(p * Real.log (p + logEps)) else 0)
      ≤ p * Real.log n + 1 / n - p := by
  by_cases hp : 0 < p
  · rw [if_pos hp]
    have hlog : Real.log p ≤ Real.log (p + logEps) :=
      Real.log_le_log hp (by linarith [logEps_pos])
    have hn' : (0 : ℝ) < n := by exact_mod_cast hn
    have hkey : -Real.log p ≤ Real.log n + 1 / (n * p) - 1 := by
      have h1 : Real.log (1 / ((n : ℝ) * p)) ≤ 1 / ((n : ℝ) * p) - 1 :=
        Real.log_le_sub_one_of_pos (by positivity)
      rw [Real.log_div one_ne_zero (by positivity), Real.log_one,
        Real.log_mul (ne_of_gt hn') (ne_of_gt hp)] at h1
      linarith
    have step1 : -(p * Real.log (p + logEps)) ≤ -(p * Real.log p) := by
      have := mul_le_mul_of_nonneg_left hlog hp0
      linarith
    have step2 : p * (-Real.log p) ≤ p * (Real.log n + 1 / ((n : ℝ) * p) - 1) :=
      mul_le_mul_of_nonneg_left hkey hp0
    have hsimp : p * (Real.log n + 1 / ((n : ℝ) * p) - 1)
        = p * Real.log n + 1 / n - p := by
      field_simp
      ring
    calc -(p * Real.log (p + logEps)) ≤ -(p * Real.log p) := step1
      _ = p * (-Real.log p) := by ring
      _ ≤ p * (Real.log n + 1 / ((n : ℝ) * p) - 1) := step2
      _ = p * Real.log n + 1 / n - p := hsimp
  · rw [if_neg hp]
    have hp' : p = 0 := le_antisymm (not_lt.mp hp) hp0
    rw [hp']
    have h0 : (0 : ℝ) < 1 / n := by positivity
    simp only [neg_zero, zero_mul, zero_add, sub_zero]
    exact h0.le

/-- Claim C6, amended part (the upper bound holds for every input): the
diversity score never exceeds 1. -/
theorem genre_diversity_le_one (gd : List (String × ℕ)) :
    calculate_genre_diversity gd ≤ 1 := by
  rw [calculate_genre_diversity_def]
  split_ifs with h1 h2 h3
  · exact zero_le_one
  · exact zero_le_one
  · have hne : gd ≠ [] := by
      intro hcontra
      rw [hcontra] at h1
      simp at h1
    have hnpos : 0 < gd.length := List.length_pos.mpr hne
    have htotpos : (0 : ℝ) < (((gd.map Prod.snd).sum : ℕ) : ℝ) := by
      exact_mod_cast Nat.pos_of_ne_zero h2
    have hP : (gd.map fun x => (x.2 : ℝ) / (((gd.map Prod.snd).sum : ℕ) : ℝ)).sum = 1 := by
      rw [list_sum_map_div gd (fun x => ((x.2 : ℕ) : ℝ)) (((gd.map Prod.snd).sum : ℕ) : ℝ)]
      rw [list_sum_map_natcast gd Prod.snd]
      exact div_self (ne_of_gt htotpos)
    have hbound : -(((gd.map fun x => (x.2 : ℝ) / (((gd.map Prod.snd).sum : ℕ) : ℝ)).map fun p =>
        if 0 < p then p * Real.log (p + logEps) else 0).sum) ≤ Real.log gd.length := by
      rw [list_sum_neg, List.map_map, List.map_map]
      have hpt : ∀ x ∈ gd,
          (Neg.neg ∘ (fun p => if 0 < p then p * Real.log (p + logEps) else 0) ∘
            fun x : String × ℕ => (x.2 : ℝ) / (((gd.map Prod.snd).sum : ℕ) : ℝ)) x
          ≤ ((x.2 : ℝ) / (((gd.map Prod.snd).sum : ℕ) : ℝ)) * Real.log gd.length
              + 1 / (gd.length : ℝ)
              - (x.2 : ℝ) / (((gd.map Prod.snd).sum : ℕ) : ℝ) := by
        intro x _
        have hterm := entropy_term_le gd.length hnpos
          ((x.2 : ℝ) / (((gd.map Prod.snd).sum : ℕ) : ℝ)) (by positivity)
        simp only [Function.comp]
        rw [apply_ite Neg.neg, neg_zero]
        exact hterm
      refine le_trans (List.sum_le_sum hpt) ?_
      have hsplit : (fun x : String × ℕ =>
          ((x.2 : ℝ) / (((gd.map Prod.snd).sum : ℕ) : ℝ)) * Real.log gd.length
            + 1 / (gd.length : ℝ)
            - (x.2 : ℝ) / (((gd.map Prod.snd).sum : ℕ) : ℝ))
          = fun x : String × ℕ =>
          (((x.2 : ℝ) / (((gd.map Prod.snd).sum : ℕ) : ℝ)) * Real.log gd.length)
            + ((1 / (gd.length : ℝ))
            + (-((x.2 : ℝ) / (((gd.map Prod.snd).sum : ℕ) : ℝ)))) := by
        funext x
        ring
      rw [hsplit]
      rw [list_sum_map_add gd
        (fun x => ((x.2 : ℝ) / (((gd.map Prod.snd).sum : ℕ) : ℝ)) * Real.log gd.length)
        (fun x => (1 / (gd.length : ℝ))
          + (-((x.2 : ℝ) / (((gd.map Prod.snd).sum : ℕ) : ℝ))))]
      rw [list_sum_map_add gd (fun _ => 1 / (gd.length : ℝ))
        (fun x => -((x.2 : ℝ) / (((gd.map Prod.snd).sum : ℕ) : ℝ)))]
      rw [list_sum_map_mul_right gd
        (fun x => (x.2 : ℝ) / (((gd.map Prod.snd).sum : ℕ) : ℝ)) (Real.log gd.length)]
      rw [hP, list_sum_map_const]
      have hneg1 : (gd.map fun x => -((x.2 : ℝ) / (((gd.map Prod.snd).sum : ℕ) : ℝ))).sum
          = -1 := by
        have hcomp : (gd.map fun x => -((x.2 : ℝ) / (((gd.map Prod.snd).sum : ℕ) : ℝ)))
            = (gd.map fun x => (x.2 : ℝ) / (((gd.map Prod.snd).sum : ℕ) : ℝ)).map
                fun y => -y := by
          rw [List.map_map]
          rfl
        rw [hcomp, ← list_sum_neg, hP]
      rw [hneg1]
      have hn' : (gd.length : ℝ) ≠ 0 := by
        exact_mod_cast Nat.pos_iff_ne_zero.mp hnpos
      field_simp
    exact div_le_one_of_le₀ hbound (le_of_lt h3)
  · exact zero_le_one

/-- Closed form of the diversity of a two-entry genre map with positive
playtimes. -/
theorem calculate_genre_diversity_pair (a b : String) (x y : ℕ) (hx : 0 < x) (hy : 0 < y) :
    calculate_genre_diversity [(a, x), (b, y)] =
      -(((x : ℝ) / ((x : ℝ) + (y : ℝ))) * Real.log ((x : ℝ) / ((x : ℝ) + (y : ℝ)) + logEps)
        + ((y : ℝ) / ((x : ℝ) + (y : ℝ))) * Real.log ((y : ℝ) / ((x : ℝ) + (y : ℝ)) + logEps))
        / Real.log 2 := by
  rw [calculate_genre_diversity_def]
  have hxy : x + y ≠ 0 := by omega
  have hcast : (((x + y : ℕ)) : ℝ) = (x : ℝ) + (y : ℝ) := by push_cast; ring
  have hpx : 0 < (x : ℝ) / ((x : ℝ) + (y : ℝ)) := by
    have hx' : (0 : ℝ) < x := by exact_mod_cast hx
    have hy' : (0 : ℝ) < y := by exact_mod_cast hy
    positivity
  have hpy : 0 < (y : ℝ) / ((x : ℝ) + (y : ℝ)) := by
    have hx' : (0 : ℝ) < x := by exact_mod_cast hx
    have hy' : (0 : ℝ) < y := by exact_mod_cast hy
    positivity
  simp only [List.isEmpty_cons, Bool.false_eq_true, if_false, List.map_cons, List.map_nil,
    List.sum_cons, List.sum_nil, add_zero, List.length_cons, List.length_nil]
  rw [if_neg hxy, hcast]
  rw [if_pos (show 0 < Real.log ((0 : ℕ) + 1 + 1 : ℕ) by
    norm_num
    exact Real.log_pos one_lt_two)]
  rw [if_pos hpx, if_pos hpy]
  norm_num

/-- Claim C6 counterexample: the diversity score of the genre map
`{"A": 10^30, "B": 1}` is negative, so the output does not always lie in the
closed interval `[0, 1]` (the `1e-10` added inside the logarithm makes the
first term of the entropy sum positive, and the second term is too small to
compensate). -/
theorem genre_diversity_can_be_negative :
    calculate_genre_diversity [("A", 10 ^ 30), ("B", 1)] < 0 := by
  rw [calculate_genre_diversity_pair "A" "B" (10 ^ 30) 1 (by positivity) one_pos]
  have hc1 : ((10 ^ 30 : ℕ) : ℝ) = 10 ^ 30 := by push_cast; ring
  have hc2 : ((1 : ℕ) : ℝ) = 1 := by norm_num
  rw [hc1, hc2]
  apply div_neg_of_neg_of_pos _ (Real.log_pos one_lt_two)
  rw [neg_lt_zero]
  have hA1 : (0 : ℝ) < (10 : ℝ) ^ 30 + 1 := by positivity
  have hp1 : ((10 : ℝ) ^ 30) / ((10 : ℝ) ^ 30 + 1) + logEps ≥ 1 + 9 / 10 ^ 11 := by
    unfold logEps
    rw [ge_iff_le, div_add' _ _ _ (ne_of_gt hA1), le_div_iff₀ hA1]
    norm_num
  have hp1pos : (0 : ℝ) < ((10 : ℝ) ^ 30) / ((10 : ℝ) ^ 30 + 1) + logEps := by
    have := logEps_pos
    positivity
  have hlog1 : Real.log (((10 : ℝ) ^ 30) / ((10 : ℝ) ^ 30 + 1) + logEps) ≥ 4 / 10 ^ 11 := by
    have hge := one_sub_inv_le_log _ hp1pos
    have hb : 1 / (((10 : ℝ) ^ 30) / ((10 : ℝ) ^ 30 + 1) + logEps) ≤ 1 / (1 + 9 / 10 ^ 11) := by
      apply one_div_le_one_div_of_le (by norm_num) hp1
    have : (1 : ℝ) - 1 / (1 + 9 / 10 ^ 11) ≥ 4 / 10 ^ 11 := by norm_num
    linarith
  have hp1half : ((10 : ℝ) ^ 30) / ((10 : ℝ) ^ 30 + 1) ≥ 1 / 2 := by
    rw [ge_iff_le, div_le_div_iff₀ (by norm_num) hA1]
    norm_num
  have hterm1 : ((10 : ℝ) ^ 30) / ((10 : ℝ) ^ 30 + 1)
      * Real.log (((10 : ℝ) ^ 30) / ((10 : ℝ) ^ 30 + 1) + logEps) ≥ (1 / 2) * (4 / 10 ^ 11) := by
    apply mul_le_mul hp1half hlog1 (by norm_num) (by positivity)
  have hp2pos : (0 : ℝ) < 1 / ((10 : ℝ) ^ 30 + 1) := by positivity
  have hp2small : 1 / ((10 : ℝ) ^ 30 + 1) ≤ 1 / 10 ^ 30 := by
    apply one_div_le_one_div_of_le (by norm_num) (by norm_num)
  have hlog2 : Real.log (1 / ((10 : ℝ) ^ 30 + 1) + logEps) ≥ 1 - 10 ^ 10 := by
    have hge := one_sub_inv_le_log (1 / ((10 : ℝ) ^ 30 + 1) + logEps)
      (by have := logEps_pos; positivity)
    have hb : 1 / (1 / ((10 : ℝ) ^ 30 + 1) + logEps) ≤ 1 / logEps := by
      apply one_div_le_one_div_of_le logEps_pos (by linarith [hp2pos])
    have heps : 1 / logEps = (10 : ℝ) ^ 10 := by
      unfold logEps
      norm_num
    rw [heps] at hb
    linarith
  have hterm2 : (1 / ((10 : ℝ) ^ 30 + 1))
      * Real.log (1 / ((10 : ℝ) ^ 30 + 1) + logEps) ≥ -(1 / 10 ^ 20) := by
    have hmul : (1 / ((10 : ℝ) ^ 30 + 1)) * (1 - 10 ^ 10)
        ≤ (1 / ((10 : ℝ) ^ 30 + 1)) * Real.log (1 / ((10 : ℝ) ^ 30 + 1) + logEps) :=
      mul_le_mul_of_nonneg_left hlog2 hp2pos.le
    have hlow : -(1 / 10 ^ 20 : ℝ) ≤ (1 / ((10 : ℝ) ^ 30 + 1)) * (1 - 10 ^ 10) := by
      nlinarith [hp2small, hp2pos]
    linarith
  nlinarith [hterm1, hterm2]

/-- Closed form for a two-genre map with equal positive playtimes: the
`1e-10` guard pulls the score just below 1. -/
theorem genre_diversity_equal_pair_eq (a b : String) (v : ℕ) (hv : 0 < v) :
    calculate_genre_diversity [(a, v), (b, v)]
      = 1 - Real.log (1 + 2 * logEps) / Real.log 2 := by
  rw [calculate_genre_diversity_pair a b v v hv hv]
  have hv' : (v : ℝ) ≠ 0 := Nat.cast_ne_zero.mpr hv.ne'
  have hp : (v : ℝ) / ((v : ℝ) + (v : ℝ)) = 1 / 2 := by
    field_simp
    ring
  rw [hp]
  have hL : Real.log (1 / 2 + logEps) = Real.log (1 + 2 * logEps) - Real.log 2 := by
    have h1 : (1 / 2 + logEps : ℝ) = (1 + 2 * logEps) / 2 := by ring
    rw [h1, Real.log_div (by have := logEps_pos; positivity) two_ne_zero]
  rw [hL]
  have hlog2 : Real.log 2 ≠ 0 := ne_of_gt (Real.log_pos one_lt_two)
  field_simp

/-- Claim C7 counterexample: for the genre map `{"A": 5, "B": 5}` (two genres
with equal positive playtime) the diversity score is not exactly 1. -/
theorem genre_diversity_equal_pair_ne_one :
    calculate_genre_diversity [("A", 5), ("B", 5)] ≠ 1 := by
  rw [genre_diversity_equal_pair_eq "A" "B" 5 (by norm_num)]
  have hpos : 0 < Real.log (1 + 2 * logEps) / Real.log 2 := by
    apply div_pos
    · apply Real.log_pos
      have := logEps_pos
      linarith
    · exact Real.log_pos one_lt_two
  intro hcontra
  linarith [hpos, hcontra]

/-- Claim C7 (amended): for every genre map with exactly two distinct genres of
equal positive playtime, the diversity score lies strictly between
`1 - 10⁻⁹` and `1` — the maximum entropy is approached but, because of the
`1e-10` guard inside the logarithm, never reached exactly. -/
theorem genre_diversity_equal_pair_near_one (a b : String) (v : ℕ)
    (_hab : a ≠ b) (hv : 0 < v) :
    1 - 1 / 10 ^ 9 < calculate_genre_diversity [(a, v), (b, v)] ∧
      calculate_genre_diversity [(a, v), (b, v)] < 1 := by
  rw [genre_diversity_equal_pair_eq a b v hv]
  have hlog2pos : 0 < Real.log 2 := Real.log_pos one_lt_two
  have hlogpos : 0 < Real.log (1 + 2 * logEps) := by
    apply Real.log_pos
    have := logEps_pos
    linarith
  constructor
  · have h1 : Real.log (1 + 2 * logEps) ≤ 2 * logEps := by
      have h := Real.log_le_sub_one_of_pos
        (show (0 : ℝ) < 1 + 2 * logEps by have := logEps_pos; positivity)
      linarith
    have h2 : (1 : ℝ) / 2 ≤ Real.log 2 := by
      have h := one_sub_inv_le_log 2 (by norm_num)
      norm_num at h
      linarith
    have hlt : Real.log (1 + 2 * logEps) / Real.log 2 < 1 / 10 ^ 9 := by
      rw [div_lt_iff₀ hlog2pos]
      calc Real.log (1 + 2 * logEps) ≤ 2 * logEps := h1
        _ = 2 / 10 ^ 10 := by unfold logEps; ring
        _ < 1 / 10 ^ 9 * (1 / 2) := by norm_num
        _ ≤ 1 / 10 ^ 9 * Real.log 2 := by nlinarith [h2]
    linarith
  · have : 0 < Real.log (1 + 2 * logEps) / Real.log 2 := div_pos hlogpos hlog2pos
    linarith

/-- Witness for `genre_diversity_equal_pair_near_one` at the concrete map
`{"A": 5, "B": 5}`. -/
theorem genre_diversity_equal_pair_near_one_witness :
    1 - 1 / 10 ^ 9 < calculate_genre_diversity [("A", 5), ("B", 5)] ∧
      calculate_genre_diversity [("A", 5), ("B", 5)] < 1 :=
  genre_diversity_equal_pair_near_one "A" "B" 5 (by decide) (by decide)

/-! ### Recommendation persistence (claim C3) -/

theorem filter_save_eq {S : Type} (table : List (Recommendation S)) (user_id : ℕ)
    (recs : List (RecDict S)) :
    (save_recommendations table user_id recs).filter
        (fun r => r.steam_user_id == user_id)
      = recs.map fun rec =>
          { steam_user_id := user_id
            game_id := rec.game
            recommendation_type := rec.recommendation_type
            score := rec.score
            reason := rec.reason } := by
  rw [save_recommendations, List.filter_append]
  have h1 : (table.filter fun r => r.steam_user_id != user_id).filter
      (fun r => r.steam_user_id == user_id) = [] := by
    induction table with
    | nil => rfl
    | cons r t ih =>
      by_cases hr : r.steam_user_id = user_id
      · simp [hr, ih]
      · simp [List.filter_cons, hr, ih]
  have h2 : ((recs.map fun rec =>
      ({ steam_user_id := user_id
         game_id := rec.game
         recommendation_type := rec.recommendation_type
         score := rec.score
         reason := rec.reason } : Recommendation S)).filter
        (fun r => r.steam_user_id == user_id))
      = recs.map fun rec =>
          { steam_user_id := user_id
            game_id := rec.game
            recommendation_type := rec.recommendation_type
            score := rec.score
            reason := rec.reason } := by
    induction recs with
    | nil => rfl
    | cons r t ih => simp [List.filter_cons, ih]
  rw [h1, h2, List.nil_append]

theorem filter_save_ne {S : Type} (table : List (Recommendation S)) (user_id : ℕ)
    (recs : List (RecDict S)) :
    (save_recommendations table user_id recs).filter
        (fun r => r.steam_user_id != user_id)
      = table.filter fun r => r.steam_user_id != user_id := by
  rw [save_recommendations, List.filter_append]
  have h1 : (table.filter fun r => r.steam_user_id != user_id).filter
      (fun r => r.steam_user_id != user_id)
      = table.filter fun r => r.steam_user_id != user_id := by
    induction table with
    | nil => rfl
    | cons r t ih =>
      by_cases hr : r.steam_user_id = user_id
      · simp [hr, ih]
      · simp [List.filter_cons, hr, ih]
  have h2 : ((recs.map fun rec =>
      ({ steam_user_id := user_id
         game_id := rec.game
         recommendation_type := rec.recommendation_type
         score := rec.score
         reason := rec.reason } : Recommendation S)).filter
        (fun r => r.steam_user_id != user_id)) = [] := by
    induction recs with
    | nil => rfl
    | cons r t ih => simp [List.filter_cons, ih]
  rw [h1, h2, List.append_nil]

/-- Claim C3 counterexample: with one stored row for player 1 and a freshly
computed empty set, the endpoint's save step keeps the old row, so the
request does not delete the player's prior rows and insert the (empty) new
set. -/
theorem request_save_empty_keeps_old_rows :
    ((recommendations_request_save
        [({ steam_user_id := 1, game_id := 7, recommendation_type := "hybrid",
            score := 3, reason := "old" } : Recommendation ℕ)] 1 []).filter
      fun r => r.steam_user_id == 1) ≠ ([] : List (Recommendation ℕ)) := by
  decide

/-- Claim C3 (amended): `save_recommendations` itself always replaces — after a
save the stored rows of the player are exactly the new set, rows of other
players are untouched, and saving twice leaves exactly the second set; the
endpoint, however, only invokes the save when the freshly computed list is
nonempty (an empty computation leaves the prior rows in place). -/
theorem save_recommendations_replaces {S : Type} (table : List (Recommendation S))
    (user_id : ℕ) (recs recs2 : List (RecDict S)) (r : RecDict S)
    (rest : List (RecDict S)) :
    ((save_recommendations table user_id recs).filter
        (fun row => row.steam_user_id == user_id)
      = recs.map fun rec =>
          { steam_user_id := user_id
            game_id := rec.game
            recommendation_type := rec.recommendation_type
            score := rec.score
            reason := rec.reason })
    ∧ ((save_recommendations table user_id recs).filter
        (fun row => row.steam_user_id != user_id)
      = table.filter fun row => row.steam_user_id != user_id)
    ∧ ((save_recommendations (save_recommendations table user_id recs2) user_id recs).filter
        (fun row => row.steam_user_id == user_id)
      = recs.map fun rec =>
          { steam_user_id := user_id
            game_id := rec.game
            recommendation_type := rec.recommendation_type
            score := rec.score
            reason := rec.reason })
    ∧ recommendations_request_save table user_id (r :: rest)
        = save_recommendations table user_id (r :: rest) :=
  ⟨filter_save_eq table user_id recs,
   filter_save_ne table user_id recs,
   filter_save_eq (save_recommendations table user_id recs2) user_id recs,
   rfl⟩

/-! ### Feature-vector persistence (claims C8 and C9) -/

theorem upsertML_find (tbl : List MLPlayerFeatures) (uid : ℕ) (f : Features)
    (fv : List ℝ) :
    (upsertML tbl uid f fv).find? (fun m => m.steam_user_id == uid)
      = some (match tbl.find? (fun m => m.steam_user_id == uid) with
          | some m => updateFeatures m f fv
          | none => newFeaturesRow uid f fv) := by
  induction tbl with
  | nil => simp [upsertML, newFeaturesRow, List.find?]
  | cons m rest ih =>
    by_cases hm : m.steam_user_id = uid
    · simp [upsertML, List.find?, hm, updateFeatures]
    · have hm' : (m.steam_user_id == uid) = false := by
        simp [hm]
      simp only [upsertML, hm', Bool.false_eq_true, if_false, List.find?_cons, hm']
      exact ih

theorem upsertML_filter_ne (tbl : List MLPlayerFeatures) (uid : ℕ) (f : Features)
    (fv : List ℝ) :
    (upsertML tbl uid f fv).filter (fun m => m.steam_user_id != uid)
      = tbl.filter fun m => m.steam_user_id != uid := by
  induction tbl with
  | nil => simp [upsertML, newFeaturesRow]
  | cons m rest ih =>
    by_cases hm : m.steam_user_id = uid
    · simp [upsertML, hm, List.filter_cons, updateFeatures]
    · have hm' : (m.steam_user_id == uid) = false := by
        simp [hm]
      simp only [upsertML, hm', Bool.false_eq_true, if_false, List.filter_cons]
      rw [ih]

/-- Claim C8 (confirmed): after every feature extraction and save, the row
stored for the player holds the whole 8-component vector
`[total_games, total_playtime/60, avg_playtime_per_game, games_played,
completion_rate, achievement_rate*100, genre_diversity*100, activity_score]`,
computed from the single extraction pass, and its length is 8. -/
theorem save_user_features_vector (db : DB) (user_id : ℕ) :
    (((save_user_features db user_id).ml_features.find? fun m =>
        m.steam_user_id == user_id).map MLPlayerFeatures.feature_vector
      = some (some
          [((extract_user_features db user_id).total_games : ℝ),
           ((extract_user_features db user_id).total_playtime : ℝ) / 60,
           (extract_user_features db user_id).avg_playtime_per_game,
           ((extract_user_features db user_id).games_played : ℝ),
           (extract_user_features db user_id).completion_rate,
           (extract_user_features db user_id).achievement_rate * 100,
           (extract_user_features db user_id).genre_diversity_score * 100,
           (extract_user_features db user_id).activity_score]))
    ∧ (((save_user_features db user_id).ml_features.find? fun m =>
        m.steam_user_id == user_id).map fun m => (m.feature_vector.getD []).length)
      = some 8 := by
  have hfind := upsertML_find db.ml_features user_id (extract_user_features db user_id)
    (feature_vector_of (extract_user_features db user_id))
  have hsave : (save_user_features db user_id).ml_features
      = upsertML db.ml_features user_id (extract_user_features db user_id)
        (feature_vector_of (extract_user_features db user_id)) := rfl
  rw [hsave, hfind]
  cases db.ml_features.find? fun m => m.steam_user_id == user_id with
  | none => exact ⟨rfl, rfl⟩
  | some m => exact ⟨rfl, rfl⟩

/-- Claim C9 (confirmed): the feature upsert leaves `cluster_id` unchanged on
an existing row, creates it null on a fresh row, and does not touch any other
player's row. -/
theorem save_user_features_cluster_frame (db : DB) (user_id : ℕ) :
    ((((save_user_features db user_id).ml_features.find? fun m =>
        m.steam_user_id == user_id).bind MLPlayerFeatures.cluster_id)
      = ((db.ml_features.find? fun m => m.steam_user_id == user_id).bind
          MLPlayerFeatures.cluster_id))
    ∧ ((save_user_features db user_id).ml_features.filter
        (fun m => m.steam_user_id != user_id)
      = db.ml_features.filter fun m => m.steam_user_id != user_id) := by
  constructor
  · have hfind := upsertML_find db.ml_features user_id (extract_user_features db user_id)
      (feature_vector_of (extract_user_features db user_id))
    have hsave : (save_user_features db user_id).ml_features
        = upsertML db.ml_features user_id (extract_user_features db user_id)
          (feature_vector_of (extract_user_features db user_id)) := rfl
    rw [hsave, hfind]
    cases db.ml_features.find? fun m => m.steam_user_id == user_id with
    | none => rfl
    | some m => rfl
  · exact upsertML_filter_ne db.ml_features user_id (extract_user_features db user_id)
      (feature_vector_of (extract_user_features db user_id))

/-! ### Clustering failure behaviour (claim C4) -/

theorem cluster_players_def (km : ℕ → ℕ → List (List ℝ) → ℕ → List ℕ)
    (tbl : List MLPlayerFeatures) (k : ℕ) :
    cluster_players km tbl k =
      if tbl.length < k then .error (.not_enough_users k tbl.length)
      else if ((tbl.filter fun f => truthyVec f.feature_vector).map fun f =>
          f.feature_vector.getD []).isEmpty then .error .no_feature_vectors
      else if ((tbl.filter fun f => truthyVec f.feature_vector).map fun f =>
          f.feature_vector.getD []).length < k then
        .error (.kmeans_value_error
          ((tbl.filter fun f => truthyVec f.feature_vector).map fun f =>
            f.feature_vector.getD []).length k)
      else
        .ok
          (tbl.map (apply_cluster_assignment
            (((tbl.filter fun g => truthyVec g.feature_vector).map
                MLPlayerFeatures.steam_user_id).zip
              (km 42 10
                (fit_transform ((tbl.filter fun g => truthyVec g.feature_vector).map
                  fun g => g.feature_vector.getD [])) k))),
           ((tbl.filter fun f => truthyVec f.feature_vector).map
             MLPlayerFeatures.steam_user_id).length) := rfl

/-- Claim C4 counterexample: with two stored feature rows of which only one has
a truthy vector and a requested cluster count of 2, fewer players than `k` have
feature vectors, yet the operation does not fail with the insufficient-data
error (the guard counts every row, and the run aborts later inside k-means
instead). -/
theorem cluster_players_wrong_guard :
    (c4tbl.filter fun f => truthyVec f.feature_vector).length < 2 ∧
      cluster_players kmZero c4tbl 2
        ≠ Except.error (ClusterError.not_enough_users 2 c4tbl.length) := by
  constructor
  · decide
  · intro hcontra
    have hres : cluster_players kmZero c4tbl 2
        = Except.error (ClusterError.kmeans_value_error 1 2) := rfl
    rw [hres] at hcontra
    simp [c4tbl] at hcontra

/-- Claim C4 (amended): whenever fewer players than `k` have (truthy) feature
vectors the clustering run aborts without writing any label, but the
insufficient-data error is returned exactly when the total number of feature
rows — vectors or not — is below `k`; otherwise the abort surfaces as a
different failure (the empty-matrix error or the `ValueError` k-means raises
on too few samples). -/
theorem cluster_players_insufficient (km : ℕ → ℕ → List (List ℝ) → ℕ → List ℕ)
    (tbl : List MLPlayerFeatures) (k : ℕ)
    (h : (tbl.filter fun f => truthyVec f.feature_vector).length < k) :
    (cluster_players km tbl k).isOk = false ∧
      (tbl.length < k →
        cluster_players km tbl k = .error (.not_enough_users k tbl.length)) ∧
      (k ≤ tbl.length →
        cluster_players km tbl k ≠ .error (.not_enough_users k tbl.length)) := by
  rw [cluster_players_def]
  split_ifs with h1 h2 h3
  · exact ⟨rfl, fun _ => rfl, fun hk => absurd h1 (not_lt.mpr hk)⟩
  · refine ⟨rfl, fun hl => absurd hl h1, fun _ hcontra => ?_⟩
    simp at hcontra
  · refine ⟨rfl, fun hl => absurd hl h1, fun _ hcontra => ?_⟩
    simp at hcontra
  · exfalso
    rw [List.length_map] at h3
    exact h3 h

/-- Witness for `cluster_players_insufficient`: one stored row whose vector is
null, requested cluster count 1. -/
theorem cluster_players_insufficient_witness :
    (cluster_players kmZero [blankRow 1 none] 1).isOk = false ∧
      ([blankRow 1 none].length < 1 →
        cluster_players kmZero [blankRow 1 none] 1
          = .error (.not_enough_users 1 [blankRow 1 none].length)) ∧
      (1 ≤ [blankRow 1 none].length →
        cluster_players kmZero [blankRow 1 none] 1
          ≠ .error (.not_enough_users 1 [blankRow 1 none].length)) :=
  cluster_players_insufficient kmZero [blankRow 1 none] 1 (by decide)

/-! ### Collaborative recommender on a player without features (claim C5) -/

/-- Claim C5 counterexample: in `dbNoVec` player 1's stored feature row has a
null vector, and the collaborative recommender returns the ordinary empty
recommendation list — its exception-free code computes a value instead of
failing with any error. -/
theorem collaborative_no_features_returns_list :
    get_collaborative_recommendations dbNoVec 1 10 = [] := rfl

/-- Claim C5 (amended): whenever the target player has no feature row, or a
feature row whose vector is null or empty, the collaborative recommender
returns the empty list (the same value as a legitimate no-candidate outcome)
rather than raising an error. -/
theorem collaborative_no_features_empty (db : DB) (user_id n : ℕ)
    (h : ((db.ml_features.find? fun m => m.steam_user_id == user_id).all
      fun f => !truthyVec f.feature_vector) = true) :
    get_collaborative_recommendations db user_id n = [] := by
  cases hf : db.ml_features.find? fun m => m.steam_user_id == user_id with
  | none => simp [get_collaborative_recommendations, hf]
  | some f =>
    rw [hf] at h
    have hv : truthyVec f.feature_vector = false := by
      simpa using h
    simp [get_collaborative_recommendations, hf, collab_recs_for, hv]

/-- Witness for `collaborative_no_features_empty` on the empty database. -/
theorem collaborative_no_features_empty_witness :
    get_collaborative_recommendations emptyDB 1 10 = [] :=
  collaborative_no_features_empty emptyDB 1 10 (by decide)

/-! ### Collaborative recommendations exclude owned games (claim C1) -/

theorem bumpAssoc_keys {κ β : Type} [BEq κ] [Add β] (m : List (κ × β)) (k : κ) (v : β)
    (x : κ) (hx : x ∈ (bumpAssoc m k v).map Prod.fst) :
    x ∈ m.map Prod.fst ∨ x = k := by
  unfold bumpAssoc at hx
  split_ifs at hx with h
  · left
    have hkeys : ((m.map fun p => if p.1 == k then (p.1, p.2 + v) else p).map Prod.fst)
        = m.map Prod.fst := by
      rw [List.map_map]
      apply List.map_congr_left
      intro p _
      by_cases hp : p.1 == k <;> simp [hp]
    rwa [hkeys] at hx
  · rw [List.map_append] at hx
    rcases List.mem_append.mp hx with h1 | h2
    · exact Or.inl h1
    · right
      simpa using h2

theorem collab_inner_fold_keys (db : DB) (user_id : ℕ) (sim : ℝ) (rows : List UserGame)
    (acc : List (ℕ × ℝ)) (hacc : ∀ x ∈ acc.map Prod.fst, x ∉ owned_game_ids db user_id) :
    ∀ x ∈ ((rows.foldl
        (fun acc2 ug =>
          if ug.game_id ∈ owned_game_ids db user_id then acc2
          else bumpAssoc acc2 ug.game_id (sim * log1p (ug.playtime_forever : ℝ)))
        acc).map Prod.fst), x ∉ owned_game_ids db user_id := by
  induction rows generalizing acc with
  | nil => exact hacc
  | cons ug rest ih =>
    rw [List.foldl_cons]
    by_cases hg : ug.game_id ∈ owned_game_ids db user_id
    · rw [if_pos hg]
      exact ih acc hacc
    · rw [if_neg hg]
      apply ih
      intro x hx
      rcases bumpAssoc_keys acc ug.game_id _ x hx with h1 | h2
      · exact hacc x h1
      · rwa [h2]

theorem collab_outer_fold_keys (db : DB) (user_id : ℕ) (tops : List (ℕ × ℝ))
    (acc : List (ℕ × ℝ)) (hacc : ∀ x ∈ acc.map Prod.fst, x ∉ owned_game_ids db user_id) :
    ∀ x ∈ ((tops.foldl
        (fun acc p =>
          (db.user_games.filter fun ug =>
              ug.steam_user_id == p.1 && decide (60 < ug.playtime_forever)).foldl
            (fun acc2 ug =>
              if ug.game_id ∈ owned_game_ids db user_id then acc2
              else bumpAssoc acc2 ug.game_id (p.2 * log1p (ug.playtime_forever : ℝ)))
            acc)
        acc).map Prod.fst), x ∉ owned_game_ids db user_id := by
  induction tops generalizing acc with
  | nil => exact hacc
  | cons p rest ih =>
    rw [List.foldl_cons]
    exact ih _ (collab_inner_fold_keys db user_id p.2 _ acc hacc)

theorem collab_game_scores_keys (db : DB) (user_id : ℕ) (user_features : MLPlayerFeatures) :
    ∀ x ∈ (collab_game_scores db user_id user_features).map Prod.fst,
      x ∉ owned_game_ids db user_id := by
  unfold collab_game_scores
  exact collab_outer_fold_keys db user_id _ [] (by simp)

/-- Claim C1 (confirmed): for every database state, target player and limit,
the collaborative recommender returns no game the target already owns — every
recommended game id is absent from the target's owned-game id set read from
`user_games`. -/
theorem collaborative_never_recommends_owned (db : DB) (user_id n : ℕ) :
    (get_collaborative_recommendations db user_id n).Forall fun rec =>
      rec.game ∉ owned_game_ids db user_id := by
  rw [List.forall_iff_forall_mem]
  intro rec hrec
  cases hf : db.ml_features.find? fun m => m.steam_user_id == user_id with
  | none =>
    have heq : get_collaborative_recommendations db user_id n = [] := by
      unfold get_collaborative_recommendations
      rw [hf]
    rw [heq] at hrec
    simp at hrec
  | some uf =>
    have heq : get_collaborative_recommendations db user_id n
        = collab_recs_for db user_id n uf := by
      unfold get_collaborative_recommendations
      rw [hf]
    rw [heq] at hrec
    by_cases hv : truthyVec uf.feature_vector
    · rw [collab_recs_for, if_pos hv] at hrec
      obtain ⟨p, hp, hpe⟩ := List.mem_map.mp hrec
      have hp2 : p ∈ (sortDescBy Prod.snd (collab_game_scores db user_id uf)).take n :=
        (List.mem_filter.mp hp).1
      have hp3 : p ∈ sortDescBy Prod.snd (collab_game_scores db user_id uf) :=
        List.take_subset _ _ hp2
      have hp4 : p ∈ collab_game_scores db user_id uf := by
        unfold sortDescBy at hp3
        exact (List.mergeSort_perm _ _).mem_iff.mp hp3
      have hp5 : p.1 ∈ (collab_game_scores db user_id uf).map Prod.fst :=
        List.mem_map_of_mem Prod.fst hp4
      have hnot := collab_game_scores_keys db user_id uf p.1 hp5
      rw [← hpe]
      exact hnot
    · rw [collab_recs_for, if_neg hv] at hrec
      simp at hrec

/-! ### Hybrid fusion (claim C2) -/

theorem list_find?_key_eq_some {α : Type} (key : α → ℕ) (l : List α) (x : α)
    (hnd : (l.map key).Nodup) (hx : x ∈ l) :
    l.find? (fun r => key r == key x) = some x := by
  induction l with
  | nil => cases hx
  | cons a t ih =>
    rw [List.map_cons, List.nodup_cons] at hnd
    rcases List.mem_cons.mp hx with hax | hxt
    · rw [hax, List.find?_cons_of_pos _ (by simp)]
    · have hne : key a ≠ key x := by
        intro hcontra
        exact hnd.1 (hcontra ▸ List.mem_map_of_mem key hxt)
      rw [List.find?_cons_of_neg _ (by simp [hne])]
      exact ih hnd.2 hxt

theorem list_find?_key_eq_none {α : Type} (key : α → ℕ) (l : List α) (g : ℕ)
    (h : g ∉ l.map key) : l.find? (fun r => key r == g) = none := by
  rw [List.find?_eq_none]
  intro x hx hbeq
  exact h (by
    have : key x = g := by simpa using hbeq
    exact this ▸ List.mem_map_of_mem key hx)

theorem upsert_collab_append {S : Type} (m : List (ℕ × RecDict S)) (r : RecDict S)
    (h : r.game ∉ m.map Prod.fst) :
    upsert_collab m r = m ++ [(r.game, hybridize r)] := by
  unfold upsert_collab
  rw [if_neg]
  intro hc
  rw [List.any_eq_true] at hc
  obtain ⟨p, hp, hbeq⟩ := hc
  have : p.1 = r.game := by simpa using hbeq
  exact h (this ▸ List.mem_map_of_mem Prod.fst hp)

theorem collab_fold_eq {S : Type} (collab : List (RecDict S)) (acc : List (ℕ × RecDict S))
    (hnd : (collab.map RecDict.game).Nodup)
    (hdisj : ∀ r ∈ collab, r.game ∉ acc.map Prod.fst) :
    collab.foldl upsert_collab acc = acc ++ collab.map fun r => (r.game, hybridize r) := by
  induction collab generalizing acc with
  | nil => simp
  | cons r rest ih =>
    rw [List.map_cons, List.nodup_cons] at hnd
    rw [List.foldl_cons, upsert_collab_append acc r (hdisj r (List.mem_cons_self r rest))]
    rw [ih (acc ++ [(r.game, hybridize r)]) hnd.2]
    · rw [List.append_assoc, List.singleton_append, List.map_cons]
    · intro r' hr'
      rw [List.map_append, List.mem_append]
      rintro (h1 | h2)
      · exact hdisj r' (List.mem_cons_of_mem r hr') h1
      · have : r'.game = r.game := by simpa using h2
        exact hnd.1 (this ▸ List.mem_map_of_mem RecDict.game hr')

theorem merge_content_of_mem {S : Type} [Add S] (m : List (ℕ × RecDict S)) (c : RecDict S)
    (h : (m.any fun p => p.1 == c.game) = true) :
    merge_content m c = m.map fun p =>
      if p.1 == c.game then
        (p.1, { p.2 with
                  score := p.2.score + c.score
                  reason := p.2.reason ++ "; " ++ c.reason })
      else p := by
  unfold merge_content
  rw [if_pos h]

theorem merge_content_of_not_mem {S : Type} [Add S] (m : List (ℕ × RecDict S)) (c : RecDict S)
    (h : (m.any fun p => p.1 == c.game) = false) :
    merge_content m c = m ++ [(c.game, hybridize c)] := by
  unfold merge_content
  rw [h]
  simp

theorem content_fold_eq {S : Type} [Add S] (content : List (RecDict S))
    (m : List (ℕ × RecDict S)) (hnd : (content.map RecDict.game).Nodup) :
    content.foldl merge_content m
      = m.map (apply_content_updates content)
        ++ (content.filter fun c => !(m.any fun p => p.1 == c.game)).map
            fun c => (c.game, hybridize c) := by
  induction content generalizing m with
  | nil =>
    rw [List.foldl_nil, List.filter_nil, List.map_nil, List.append_nil]
    conv_lhs => rw [← List.map_id m]
    apply List.map_congr_left
    intro q _
    unfold apply_content_updates
    rw [List.find?_nil]
    rfl
  | cons c rest ih =>
    rw [List.map_cons, List.nodup_cons] at hnd
    obtain ⟨hcg, hndr⟩ := hnd
    rw [List.foldl_cons]
    by_cases hm : (m.any fun p => p.1 == c.game) = true
    · rw [merge_content_of_mem m c hm, ih _ hndr]
      congr 1
      · rw [List.map_map]
        apply List.map_congr_left
        intro q _
        simp only [Function.comp]
        by_cases hqc : q.1 = c.game
        · have hfr : rest.find? (fun x => x.game == q.1) = none := by
            apply list_find?_key_eq_none
            rw [hqc]
            exact hcg
          rw [if_pos (by simp [hqc])]
          unfold apply_content_updates
          rw [hfr, List.find?_cons_of_pos _ (by simp [hqc])]
        · rw [if_neg (by simp [hqc])]
          unfold apply_content_updates
          rw [List.find?_cons_of_neg _ (by simp [Ne.symm hqc])]
      · rw [List.filter_cons]
        have hhead : (!(m.any fun p => p.1 == c.game)) = false := by
          rw [hm]
          rfl
        rw [hhead]
        simp only [Bool.false_eq_true, if_false]
        have hfun : (fun c' : RecDict S =>
            !((m.map fun p => if p.1 == c.game then
                (p.1, { p.2 with
                          score := p.2.score + c.score
                          reason := p.2.reason ++ "; " ++ c.reason })
              else p).any fun p => p.1 == c'.game))
            = fun c' : RecDict S => !(m.any fun p => p.1 == c'.game) := by
          funext c'
          rw [List.any_map]
          have hcomp : ((fun p : ℕ × RecDict S => p.1 == c'.game) ∘ fun p =>
              if p.1 == c.game then
                (p.1, { p.2 with
                          score := p.2.score + c.score
                          reason := p.2.reason ++ "; " ++ c.reason })
              else p)
              = fun p : ℕ × RecDict S => p.1 == c'.game := by
            funext p
            by_cases hp : p.1 = c.game <;> simp [Function.comp, hp]
          rw [hcomp]
        rw [hfun]
    · have hm' : (m.any fun p => p.1 == c.game) = false := by
        revert hm
        cases m.any fun p => p.1 == c.game <;> simp
      rw [merge_content_of_not_mem m c hm', ih _ hndr]
      rw [List.map_append, List.map_cons, List.map_nil]
      have hsing : apply_content_updates rest (c.game, hybridize c) = (c.game, hybridize c) := by
        unfold apply_content_updates
        rw [list_find?_key_eq_none RecDict.game rest c.game hcg]
      have hall : ∀ p ∈ m, (p.1 == c.game) = false := by
        intro p hp
        have := List.any_eq_false.mp hm' p hp
        revert this
        cases p.1 == c.game <;> simp
      have hmap : m.map (apply_content_updates rest)
          = m.map (apply_content_updates (c :: rest)) := by
        apply List.map_congr_left
        intro q hq
        have hqc : q.1 ≠ c.game := by
          intro hcontra
          have := hall q hq
          rw [hcontra] at this
          simp at this
        unfold apply_content_updates
        rw [List.find?_cons_of_neg _ (by simp [Ne.symm hqc])]
      have hfilters : (rest.filter fun c' =>
            !((m ++ [(c.game, hybridize c)]).any fun p => p.1 == c'.game))
          = rest.filter fun c' => !(m.any fun p => p.1 == c'.game) := by
        apply List.filter_congr
        intro c' hc'
        have hne : (c.game == c'.game) = false := by
          have h1 : c.game ≠ c'.game := by
            intro hcontra
            exact hcg (hcontra ▸ List.mem_map_of_mem RecDict.game hc')
          simp [h1]
        rw [List.any_append]
        simp [hne]
      rw [hsing, hmap, hfilters]
      rw [List.filter_cons_of_pos (by rw [hm']; rfl), List.map_cons]
      rw [List.append_assoc, List.singleton_append]

theorem apply_content_updates_some {S : Type} [Add S] (content : List (RecDict S))
    (g : ℕ) (r : RecDict S) (c : RecDict S)
    (hfind : content.find? (fun x => x.game == g) = some c) :
    apply_content_updates content (g, r)
      = (g, { r with
                score := r.score + c.score
                reason := r.reason ++ "; " ++ c.reason }) := by
  simp [apply_content_updates, hfind]

theorem apply_content_updates_none {S : Type} [Add S] (content : List (RecDict S))
    (g : ℕ) (r : RecDict S)
    (hfind : content.find? (fun x => x.game == g) = none) :
    apply_content_updates content (g, r) = (g, r) := by
  simp [apply_content_updates, hfind]

theorem sortDescBy_perm {α β : Type} [LinearOrder β] (key : α → β) (l : List α) :
    (sortDescBy key l).Perm l :=
  List.mergeSort_perm l _

theorem sortDescBy_pairwise {α β : Type} [LinearOrder β] (key : α → β) (l : List α) :
    (sortDescBy key l).Pairwise fun a b => key b ≤ key a := by
  have h := @List.sorted_mergeSort α (fun x y => decide (key y ≤ key x))
    (fun a b c h1 h2 => by
      rw [decide_eq_true_iff] at h1 h2 ⊢
      exact le_trans h2 h1)
    (fun a b => by
      rcases le_total (key a) (key b) with hab | hab <;> simp [hab])
    l
  exact h.imp fun hab => of_decide_eq_true hab

/-- Claim C2 (confirmed): for input lists without internal duplicate game ids
(as the two recommenders produce), hybrid fusion yields a list where every
game appears at most once, every entry is tagged `hybrid`, a game present in
both inputs carries the sum of its two scores and its reasons joined with
`"; "`, a game present in only one input keeps its score and reason, and the
output is sorted by score descending with length at most `n`. -/
theorem hybrid_fusion_correct (S : Type) [LinearOrder S] [Add S]
    (collaborative content_based : List (RecDict S)) (n : ℕ)
    (hc : (collaborative.map RecDict.game).Nodup)
    (ht : (content_based.map RecDict.game).Nodup) :
    ((merge_recommendations collaborative content_based n).map RecDict.game).Nodup ∧
    (merge_recommendations collaborative content_based n).Forall
      (fun e => e.recommendation_type = "hybrid") ∧
    (merge_recommendations collaborative content_based n).Pairwise
      (fun a b => b.score ≤ a.score) ∧
    (merge_recommendations collaborative content_based n).length ≤ n ∧
    (merge_recommendations collaborative content_based n).Forall
      (fused_entry_spec collaborative content_based) := by
  have hfold : merge_recommendations collaborative content_based n
      = (sortDescBy RecDict.score
          (((collaborative.map fun r => (r.game, hybridize r)).map
              (apply_content_updates content_based)
            ++ (content_based.filter fun c =>
                !((collaborative.map fun r => (r.game, hybridize r)).any fun p =>
                  p.1 == c.game)).map fun c => (c.game, hybridize c)).map
            Prod.snd)).take n := by
    unfold merge_recommendations
    rw [collab_fold_eq collaborative [] hc (by simp), List.nil_append,
      content_fold_eq content_based _ ht]
  rw [hfold]
  set m1 : List (ℕ × RecDict S) := collaborative.map fun r => (r.game, hybridize r) with hm1
  set flt : List (RecDict S) :=
    content_based.filter fun c => !(m1.any fun p => p.1 == c.game) with hflt
  set allr : List (ℕ × RecDict S) :=
    m1.map (apply_content_updates content_based) ++ flt.map fun c => (c.game, hybridize c)
    with hallr
  set vals : List (RecDict S) := allr.map Prod.snd with hvals
  have hpt : ∀ e ∈ vals, e.recommendation_type = "hybrid" ∧
      fused_entry_spec collaborative content_based e := by
    intro e he
    rw [hvals, hallr, List.map_append, List.mem_append] at he
    rcases he with he1 | he2
    · rw [List.map_map, hm1, List.map_map] at he1
      obtain ⟨r, hr, hre⟩ := List.mem_map.mp he1
      simp only [Function.comp_apply] at hre
      cases hfind : content_based.find? fun x => x.game == r.game with
      | some c =>
        rw [apply_content_updates_some content_based r.game (hybridize r) c hfind] at hre
        have hty : e.recommendation_type = "hybrid" := by subst hre; rfl
        have heg : e.game = r.game := by subst hre; rfl
        have hsc : e.score = r.score + c.score := by subst hre; rfl
        have hrs : e.reason = r.reason ++ "; " ++ c.reason := by subst hre; rfl
        refine ⟨hty, ?_⟩
        unfold fused_entry_spec
        rw [heg, list_find?_key_eq_some RecDict.game collaborative r hc hr, hfind]
        exact ⟨hsc, hrs⟩
      | none =>
        rw [apply_content_updates_none content_based r.game (hybridize r) hfind] at hre
        have hty : e.recommendation_type = "hybrid" := by subst hre; rfl
        have heg : e.game = r.game := by subst hre; rfl
        have hsc : e.score = r.score := by subst hre; rfl
        have hrs : e.reason = r.reason := by subst hre; rfl
        refine ⟨hty, ?_⟩
        unfold fused_entry_spec
        rw [heg, list_find?_key_eq_some RecDict.game collaborative r hc hr, hfind]
        exact ⟨hsc, hrs⟩
    · rw [List.map_map] at he2
      obtain ⟨c, hcflt, hce⟩ := List.mem_map.mp he2
      have hty : e.recommendation_type = "hybrid" := by subst hce; rfl
      have heg : e.game = c.game := by subst hce; rfl
      have hsc : e.score = c.score := by subst hce; rfl
      have hrs : e.reason = c.reason := by subst hce; rfl
      have hcmem := List.mem_filter.mp (hflt ▸ hcflt)
      have hnotin : c.game ∉ collaborative.map RecDict.game := by
        intro hmem
        obtain ⟨r, hr, hrg⟩ := List.mem_map.mp hmem
        have hpair : ((r.game, hybridize r) : ℕ × RecDict S) ∈ m1 := by
          rw [hm1]
          exact List.mem_map_of_mem _ hr
        have hany : (m1.any fun p => p.1 == c.game) = true :=
          List.any_eq_true.mpr ⟨(r.game, hybridize r), hpair, by simp [hrg]⟩
        have hcond := hcmem.2
        rw [hany] at hcond
        simp at hcond
      refine ⟨hty, ?_⟩
      unfold fused_entry_spec
      rw [heg, list_find?_key_eq_none RecDict.game collaborative c.game hnotin,
        list_find?_key_eq_some RecDict.game content_based c ht hcmem.1]
      exact ⟨hsc, hrs⟩
  have hgames : vals.map RecDict.game
      = collaborative.map RecDict.game ++ flt.map RecDict.game := by
    rw [hvals, hallr, List.map_append, List.map_append]
    congr 1
    · rw [hm1, List.map_map, List.map_map, List.map_map]
      apply List.map_congr_left
      intro r _
      simp only [Function.comp_apply]
      cases hfind : content_based.find? fun x => x.game == r.game with
      | some c =>
        rw [apply_content_updates_some content_based r.game (hybridize r) c hfind]
        rfl
      | none =>
        rw [apply_content_updates_none content_based r.game (hybridize r) hfind]
        rfl
    · rw [List.map_map, List.map_map]
      rfl
  have hnd2 : (vals.map RecDict.game).Nodup := by
    rw [hgames, List.nodup_append]
    refine ⟨hc, ?_, ?_⟩
    · have hsub : List.Sublist (flt.map RecDict.game) (content_based.map RecDict.game) := by
        rw [hflt]
        exact List.Sublist.map RecDict.game (List.filter_sublist _)
      exact List.Nodup.sublist hsub ht
    · intro g hg1 hg2
      obtain ⟨c, hcflt, hcg⟩ := List.mem_map.mp hg2
      have hcmem := List.mem_filter.mp (hflt ▸ hcflt)
      obtain ⟨r, hr, hrg⟩ := List.mem_map.mp hg1
      have hpair : ((r.game, hybridize r) : ℕ × RecDict S) ∈ m1 := by
        rw [hm1]
        exact List.mem_map_of_mem _ hr
      have hany : (m1.any fun p => p.1 == c.game) = true :=
        List.any_eq_true.mpr ⟨(r.game, hybridize r), hpair, by simp [hrg, hcg]⟩
      have hcond := hcmem.2
      rw [hany] at hcond
      simp at hcond
  refine ⟨?_, ?_, ?_, ?_, ?_⟩
  · have hperm : List.Perm ((sortDescBy RecDict.score vals).map RecDict.game)
        (vals.map RecDict.game) :=
      (sortDescBy_perm RecDict.score vals).map RecDict.game
    have hnd3 : ((sortDescBy RecDict.score vals).map RecDict.game).Nodup :=
      hperm.nodup_iff.mpr hnd2
    rw [List.map_take]
    exact List.Nodup.sublist (List.take_sublist _ _) hnd3
  · rw [List.forall_iff_forall_mem]
    intro e he
    have he2 : e ∈ vals :=
      (sortDescBy_perm RecDict.score vals).mem_iff.mp (List.take_subset _ _ he)
    exact (hpt e he2).1
  · exact List.Pairwise.sublist (List.take_sublist _ _) (sortDescBy_pairwise RecDict.score vals)
  · exact List.length_take_le _ _
  · rw [List.forall_iff_forall_mem]
    intro e he
    have he2 : e ∈ vals :=
      (sortDescBy_perm RecDict.score vals).mem_iff.mp (List.take_subset _ _ he)
    exact (hpt e he2).2

/-- Witness for `hybrid_fusion_correct`: the spec's fusion example — the same
game in both lists with scores 3 and 2. -/
theorem hybrid_fusion_correct_witness :
    ((merge_recommendations c2collab c2content 10).map RecDict.game).Nodup ∧
    (merge_recommendations c2collab c2content 10).Forall
      (fun e => e.recommendation_type = "hybrid") ∧
    (merge_recommendations c2collab c2content 10).Pairwise
      (fun a b => b.score ≤ a.score) ∧
    (merge_recommendations c2collab c2content 10).length ≤ 10 ∧
    (merge_recommendations c2collab c2content 10).Forall
      (fused_entry_spec c2collab c2content) := by
  exact hybrid_fusion_correct ℕ c2collab c2content 10 (by decide) (by decide)

/-! ### Clustering determinism (claim C10) -/

theorem map_filter_factor {α β : Type} (g : α → β) (P : α → Bool) (q : β → Bool)
    (hPq : ∀ a, P a = q (g a)) (l : List α) :
    (l.filter P).map g = (l.map g).filter q := by
  induction l with
  | nil => rfl
  | cons a t ih =>
    rw [List.map_cons, List.filter_cons, List.filter_cons, hPq a]
    cases hq : q (g a)
    · simp only [Bool.false_eq_true, if_false]
      exact ih
    · simp only [if_true]
      rw [List.map_cons, ih]

theorem assocFind_zip_isSome (keys vals : List ℕ) (u : ℕ)
    (hu : u ∈ keys) (hlen : keys.length ≤ vals.length) :
    ∃ c, assocFind (keys.zip vals) u = some c := by
  induction keys generalizing vals with
  | nil => cases hu
  | cons a t ih =>
    cases vals with
    | nil => simp at hlen
    | cons b bs =>
      by_cases hau : a = u
      · refine ⟨b, ?_⟩
        unfold assocFind
        rw [List.zip_cons_cons, List.find?_cons_of_pos _ (by simp [hau])]
        rfl
      · have hut : u ∈ t := by
          rcases List.mem_cons.mp hu with h1 | h2
          · exact absurd h1.symm hau
          · exact h2
        have hlen' : t.length ≤ bs.length := by
          simp only [List.length_cons] at hlen
          omega
        obtain ⟨c, hc⟩ := ih bs hut hlen'
        refine ⟨c, ?_⟩
        unfold assocFind at hc ⊢
        rw [List.zip_cons_cons, List.find?_cons_of_neg _ (by simp [hau])]
        exact hc

theorem fit_transform_length (m : List (List ℝ)) : (fit_transform m).length = m.length :=
  List.length_map _ _

theorem apply_cluster_assignment_truthy (A : List (ℕ × ℕ)) (f : MLPlayerFeatures) :
    truthyVec (apply_cluster_assignment A f).feature_vector
      = truthyVec f.feature_vector := by
  unfold apply_cluster_assignment
  cases assocFind A f.steam_user_id <;> rfl

theorem cluster_view_map_update (tbl : List MLPlayerFeatures) (A : List (ℕ × ℕ))
    (hA : ∀ f ∈ tbl.filter fun f => truthyVec f.feature_vector,
      ∃ c, assocFind A f.steam_user_id = some c) :
    cluster_assignment_view (tbl.map (apply_cluster_assignment A))
      = ((tbl.filter fun f => truthyVec f.feature_vector).map fun f =>
          (f.steam_user_id, f.feature_vector)).map fun p =>
          (p.1, assigned_label A p.1) := by
  unfold cluster_assignment_view
  rw [← map_filter_factor (apply_cluster_assignment A)
      (fun f => truthyVec f.feature_vector)
      (fun f => truthyVec f.feature_vector)
      (fun f => (apply_cluster_assignment_truthy A f).symm) tbl]
  rw [List.map_map, List.map_map]
  apply List.map_congr_left
  intro f hf
  obtain ⟨_, hc⟩ := hA f hf
  simp [Function.comp, apply_cluster_assignment, assigned_label, hc]

theorem cluster_players_view (km : ℕ → ℕ → List (List ℝ) → ℕ → List ℕ)
    (tbl : List MLPlayerFeatures) (k : ℕ)
    (hkm : ∀ X c, (km 42 10 X c).length = X.length) :
    Except.map (fun res => (cluster_assignment_view res.1, res.2))
        (cluster_players km tbl k)
      = viewResult km (tbl.map fun f => (f.steam_user_id, f.feature_vector)) k := by
  rw [cluster_players_def]
  unfold viewResult
  have hlen : (tbl.map fun f => (f.steam_user_id, f.feature_vector)).length
      = tbl.length := List.length_map _ _
  have hfil : ((tbl.map fun f => (f.steam_user_id, f.feature_vector)).filter fun p =>
        truthyVec p.2)
      = (tbl.filter fun f => truthyVec f.feature_vector).map fun f =>
          (f.steam_user_id, f.feature_vector) :=
    (map_filter_factor (fun f : MLPlayerFeatures => (f.steam_user_id, f.feature_vector))
      (fun f => truthyVec f.feature_vector) (fun p => truthyVec p.2)
      (fun a => rfl) tbl).symm
  rw [hlen, hfil]
  have hmat : (((tbl.filter fun f => truthyVec f.feature_vector).map fun f =>
        (f.steam_user_id, f.feature_vector)).map fun p => p.2.getD [])
      = (tbl.filter fun f => truthyVec f.feature_vector).map fun f =>
          f.feature_vector.getD [] := by
    rw [List.map_map]
    rfl
  have huid : (((tbl.filter fun f => truthyVec f.feature_vector).map fun f =>
        (f.steam_user_id, f.feature_vector)).map Prod.fst)
      = (tbl.filter fun f => truthyVec f.feature_vector).map
          MLPlayerFeatures.steam_user_id := by
    rw [List.map_map]
    rfl
  rw [hmat, huid]
  split_ifs with h1 h2 h3
  · rfl
  · rfl
  · rfl
  · simp only [Except.map]
    have hA : ∀ f ∈ tbl.filter fun f => truthyVec f.feature_vector,
        ∃ c, assocFind
          (((tbl.filter fun f => truthyVec f.feature_vector).map
              MLPlayerFeatures.steam_user_id).zip
            (km 42 10 (fit_transform ((tbl.filter fun f => truthyVec f.feature_vector).map
              fun f => f.feature_vector.getD [])) k)) f.steam_user_id = some c := by
      intro f hf
      apply assocFind_zip_isSome
      · exact List.mem_map_of_mem _ hf
      · rw [hkm, fit_transform_length, List.length_map, List.length_map]
    rw [cluster_view_map_update tbl _ hA]

/-- Claim C10 (confirmed): the clustering outcome — which players take part in
the run and which cluster label each receives — depends only on the sequence
of (user id, stored vector) pairs read from the features table and on the
cluster count; the k-means stage is invoked with the fixed constants
`random_state=42, n_init=10`, so two runs over the same population (read in
the same order) assign every participating player the identical label,
whatever cluster ids or other fields were stored before. -/
theorem cluster_players_deterministic (km : ℕ → ℕ → List (List ℝ) → ℕ → List ℕ)
    (k : ℕ) (tbl1 tbl2 : List MLPlayerFeatures)
    (hkm : ∀ X c, (km 42 10 X c).length = X.length)
    (h : tbl1.map (fun f => (f.steam_user_id, f.feature_vector))
       = tbl2.map fun f => (f.steam_user_id, f.feature_vector)) :
    Except.map (fun res => (cluster_assignment_view res.1, res.2))
        (cluster_players km tbl1 k)
      = Except.map (fun res => (cluster_assignment_view res.1, res.2))
        (cluster_players km tbl2 k) := by
  rw [cluster_players_view km tbl1 k hkm, cluster_players_view km tbl2 k hkm, h]

/-- Witness for `cluster_players_deterministic`: two one-row tables that agree
on (user id, vector) but carry different prior cluster ids. -/
theorem cluster_players_deterministic_witness :
    Except.map (fun res => (cluster_assignment_view res.1, res.2))
        (cluster_players kmZero [blankRow 1 (some [1])] 1)
      = Except.map (fun res => (cluster_assignment_view res.1, res.2))
        (cluster_players kmZero
          [{ blankRow 1 (some [1]) with cluster_id := some 3 }] 1) :=
  cluster_players_deterministic kmZero 1 [blankRow 1 (some [1])]
    [{ blankRow 1 (some [1]) with cluster_id := some 3 }]
    (fun X _ => List.length_map X _) rfl

end SteamArena
